import Mathlib

/-!
Shallow embedding of the ottershipper persistence and validation core:
the `Application` model, `validate_app_name`, the repository operations
(create / get / get_by_name / list / delete), the schema bootstrap
`Database::migrate`, and the two MCP tool handlers, together with proofs
of their specified properties.
-/

set_option maxRecDepth 8192

namespace OtterShipper

/-- Application model (src/crates/db/src/models.rs): id, name, created_at. -/
structure Application where
  id : String
  name : String
  created_at : Int
deriving Repr, DecidableEq

/-- Abstract model of a `sqlx::Error` as the repository code observes it:
either an engine-level "Database" error carrying an optional SQLite extended
result code and a message, or any other failure. -/
inductive SqlxError where
  | database (code : Option String) (msg : String)
  | other (msg : String)
deriving Repr, DecidableEq

/-- `DbError` (src/crates/db/src/error.rs:3-19). `databaseError` wraps the
underlying sqlx error, as `DatabaseError(#[from] sqlx::Error)` does. -/
inductive DbError where
  | invalidName (msg : String)
  | duplicateName (name : String)
  | notFound (msg : String)
  | databaseError (e : SqlxError)
  | internal (msg : String)
deriving Repr, DecidableEq

/-- Display text of a sqlx error (its message). -/
def SqlxError.message : SqlxError → String
  | .database _ m => m
  | .other m => m

/-- Display strings of `DbError`, from the `#[error("...")]` attributes in
src/crates/db/src/error.rs. -/
def DbError.message : DbError → String
  | .invalidName m => "Invalid name: " ++ m
  | .duplicateName n => "Name '" ++ n ++ "' already exists"
  | .notFound m => "Not found: " ++ m
  | .databaseError e => "Database error: " ++ e.message
  | .internal m => "Internal error: " ++ m

/-- Outcome of running Rust code that can panic: a value, or a panic. -/
inductive RustOutcome (α : Type) where
  | ok (a : α)
  | panicked
deriving Repr, DecidableEq

instance {ε α : Type} [DecidableEq ε] [DecidableEq α] : DecidableEq (Except ε α) := fun a b =>
  match a, b with
  | .ok x, .ok y =>
    if h : x = y then .isTrue (congrArg Except.ok h)
    else .isFalse (fun hh => h (Except.ok.inj hh))
  | .error x, .error y =>
    if h : x = y then .isTrue (congrArg Except.error h)
    else .isFalse (fun hh => h (Except.error.inj hh))
  | .ok _, .error _ => .isFalse (fun hh => Except.noConfusion hh)
  | .error _, .ok _ => .isFalse (fun hh => Except.noConfusion hh)

/-- Model of Rust `char::is_alphanumeric` (true on the Unicode Alphabetic
property and the Nd/Nl/No numeric categories). Rust delegates to the Unicode
tables of its standard library; this model reproduces those tables on the
character ranges exercised in this development: ASCII digits and letters,
Latin-1 Supplement letters (such as 'é'; 0xD7 '×' and 0xF7 '÷' are excluded
as in Unicode), Hiragana, and the Katakana letters together with the
prolonged-sound mark 'ー' (U+30FC, category Lm, Alphabetic). It agrees with
Rust in mapping every ASCII punctuation, space and symbol character to false. -/
def rustIsAlphanumeric (c : Char) : Bool :=
  let n := c.toNat
  (0x30 ≤ n && n ≤ 0x39) || (0x41 ≤ n && n ≤ 0x5A) || (0x61 ≤ n && n ≤ 0x7A) ||
  (0xC0 ≤ n && n ≤ 0xFF && n ≠ 0xD7 && n ≠ 0xF7) ||
  (0x3041 ≤ n && n ≤ 0x3096) || (0x30A1 ≤ n && n ≤ 0x30FA) || (n == 0x30FC)

/-- The per-character test of the closure at src/crates/db/src/error.rs:45:
alphanumeric, hyphen or underscore. -/
def allowedChar (c : Char) : Bool :=
  rustIsAlphanumeric c || c == '-' || c == '_'

/-- `validate_app_name` (src/crates/db/src/error.rs:24-53). Rust's
`name.is_empty()` (zero bytes, equivalently no characters) is modelled as
`name.data = []`; `name.len()` is the UTF-8 byte length; the
`.chars().next().unwrap()` is modelled by the `.panicked` branch, taken
exactly when the character sequence is empty at that point. -/
def validate_app_name (name : String) : RustOutcome (Except DbError Unit) :=
  if name.data = [] then
    .ok (.error (.invalidName "name cannot be empty"))
  else if name.utf8ByteSize > 255 then
    .ok (.error (.invalidName "name cannot exceed 255 characters"))
  else
    match name.data with
    | [] => .panicked
    | c :: cs =>
      if ¬ rustIsAlphanumeric c then
        .ok (.error (.invalidName "name must start with alphanumeric character"))
      else if ¬ (c :: cs).all allowedChar then
        .ok (.error (.invalidName
          "name can only contain alphanumeric characters, hyphens, and underscores"))
      else
        .ok (.ok ())

/-- The applications table: the list of persisted rows. -/
structure Store where
  rows : List Application
deriving Repr, DecidableEq

/-- Modelled from the spec: the schema of the applications table is created by
the migration file migrations/001_initial_schema.sql, which is not among the
sources; spec §6 fixes it as id TEXT unique primary key, name TEXT unique not
null, created_at INTEGER not null. An INSERT therefore fails with SQLite
extended code 2067 (SQLITE_CONSTRAINT_UNIQUE) when a row with the same name
already exists, and with 1555 (SQLITE_CONSTRAINT_PRIMARYKEY) when a row with
the same id already exists; otherwise it appends the row. -/
def sqliteInsert (s : Store) (app : Application) : Except SqlxError Store :=
  if s.rows.any (fun r => r.name == app.name) then
    .error (.database (some "2067") "UNIQUE constraint failed: applications.name")
  else if s.rows.any (fun r => r.id == app.id) then
    .error (.database (some "1555") "UNIQUE constraint failed: applications.id")
  else
    .ok ⟨s.rows ++ [app]⟩

/-- The `map_err` closure of `ApplicationRepository::create`
(src/crates/db/src/repositories/application.rs:32-42): a database error whose
code is "2067" becomes `DuplicateName(name)`; every other error becomes
`DatabaseError(e)`. -/
def mapCreateError (name : String) (e : SqlxError) : DbError :=
  match e with
  | .database (some code) _ => if code == "2067" then .duplicateName name else .databaseError e
  | _ => .databaseError e

/-- `ApplicationRepository::create` (src/crates/db/src/repositories/application.rs:17-43):
validate the name, then INSERT ... RETURNING *. The generated uuid `id` and
the clock reading `created_at` are inputs of the model. -/
def create (s : Store) (name id : String) (created_at : Int) :
    RustOutcome (Except DbError (Application × Store)) :=
  match validate_app_name name with
  | .panicked => .panicked
  | .ok (.error e) => .ok (.error e)
  | .ok (.ok _) =>
    let app : Application := ⟨id, name, created_at⟩
    match sqliteInsert s app with
    | .ok s2 => .ok (.ok (app, s2))
    | .error e => .ok (.error (mapCreateError name e))

/-- `ApplicationRepository::get`: SELECT * FROM applications WHERE id = ?,
fetched optionally. -/
def get (s : Store) (id : String) : Option Application :=
  s.rows.find? (fun r => r.id == id)

/-- `ApplicationRepository::get_by_name`: SELECT * FROM applications WHERE name = ?. -/
def get_by_name (s : Store) (name : String) : Option Application :=
  s.rows.find? (fun r => r.name == name)

/-- The row order of ORDER BY created_at DESC, name ASC: `a` comes no later
than `b` when its created_at is larger, or equal with a `≤` name. SQLite
compares TEXT bytewise, which on well-formed UTF-8 agrees with the
codepoint-lexicographic order of Lean strings. -/
def appLe (a b : Application) : Bool :=
  decide (b.created_at < a.created_at ∨ (a.created_at = b.created_at ∧ a.name ≤ b.name))

/-- `ApplicationRepository::list`:
SELECT * FROM applications ORDER BY created_at DESC, name ASC. -/
def list (s : Store) : List Application :=
  s.rows.mergeSort appLe

/-- `ApplicationRepository::delete`: DELETE FROM applications WHERE id = ?,
returning rows_affected > 0 together with the table state afterwards. -/
def delete (s : Store) (id : String) : Bool × Store :=
  (decide (0 < (s.rows.filter (fun r => r.id == id)).length),
   ⟨s.rows.filter (fun r => r.id != id)⟩)

/-- The schema state as `Database::migrate` observes it: whether the
_migrations tracking table exists, its rows (name, applied_at), and whether
the applications table exists. -/
structure SchemaState where
  migrationsTable : Bool
  appliedMigrations : List (String × Int)
  applicationsTable : Bool
deriving Repr, DecidableEq

/-- Modelled from the spec: the effect of the missing migration file
migrations/001_initial_schema.sql. Per spec §4.2 and §6 it creates the
applications table; re-creating an existing table is modelled as an engine
error (conservatively, in case the file does not use IF NOT EXISTS). -/
def runInitialSchema (st : SchemaState) : Except SqlxError SchemaState :=
  if st.applicationsTable then
    .error (.database (some "1") "table applications already exists")
  else
    .ok { st with applicationsTable := true }

/-- `Database::migrate` (src/crates/db/src/lib.rs:73-114): CREATE TABLE IF NOT
EXISTS _migrations; look the migration up by name; when absent, run it and
record (name, applied_at). The clock reading `now` is an input of the model. -/
def migrate (st : SchemaState) (now : Int) : Except DbError SchemaState :=
  let st1 := { st with migrationsTable := true }
  match st1.appliedMigrations.find? (fun r => r.1 == "001_initial_schema") with
  | some _ => .ok st1
  | none =>
    match runInitialSchema st1 with
    | .error e => .error (.databaseError e)
    | .ok st2 =>
      .ok { st2 with appliedMigrations :=
              st2.appliedMigrations ++ [("001_initial_schema", now)] }

/-- `migrate` called once per clock reading in the list, in order, stopping at
the first error. -/
def migrateN (st : SchemaState) : List Int → Except DbError SchemaState
  | [] => .ok st
  | t :: ts =>
    match migrate st t with
    | .error e => .error e
    | .ok st2 => migrateN st2 ts

/-- The rmcp protocol error as constructed in src/crates/server/src/mcp.rs:
a JSON-RPC numeric code and a message (the data field there is always None). -/
structure McpError where
  code : Int
  message : String
deriving Repr, DecidableEq

/-- rmcp `ErrorCode::INTERNAL_ERROR`, the JSON-RPC internal-error code. -/
def INTERNAL_ERROR : Int := -32603

/-- The structured content of a successful otter_create_app response
(the json! block at src/crates/server/src/mcp.rs:37-45). -/
structure CreateAppResponse where
  success : Bool
  application : Application
  message : String
deriving Repr, DecidableEq

/-- `McpServer::otter_create_app` (src/crates/server/src/mcp.rs:29-57) as a
function of the `ApplicationService::create_app` result; the service
(src/crates/core/src/services/application.rs:36-39) delegates to the
repository unchanged. -/
def otter_create_app (r : Except DbError Application) : Except McpError CreateAppResponse :=
  match r with
  | .ok app =>
    .ok ⟨true, app,
      "Successfully created application '" ++ app.name ++ "' with ID " ++ app.id⟩
  | .error e => .error ⟨INTERNAL_ERROR, "Failed to create application: " ++ e.message⟩

/-- The structured content of a successful otter_list_apps response. -/
structure ListAppsResponse where
  success : Bool
  applications : List Application
  count : Nat
deriving Repr, DecidableEq

/-- `McpServer::otter_list_apps` (src/crates/server/src/mcp.rs:61-88) as a
function of the `ApplicationService::list_apps` result. -/
def otter_list_apps (r : Except DbError (List Application)) : Except McpError ListAppsResponse :=
  match r with
  | .ok apps => .ok ⟨true, apps, apps.length⟩
  | .error e => .error ⟨INTERNAL_ERROR, "Failed to list applications: " ++ e.message⟩

/-- The four validation rules, one constructor per rule. -/
inductive RuleViolation where
  | empty
  | tooLong
  | badFirstChar
  | badChar
deriving Repr, DecidableEq

/-- The validation rules exactly as the spec states them, checked in order
with the first failure winning, parameterized by the length measure so that
both "255 characters" and 255 UTF-8 bytes can be expressed. -/
def firstViolationWith (len : String → Nat) (name : String) : Option RuleViolation :=
  match name.data with
  | [] => some .empty
  | c :: cs =>
    if len name > 255 then some .tooLong
    else if ¬ rustIsAlphanumeric c then some .badFirstChar
    else if ¬ (c :: cs).all allowedChar then some .badChar
    else none

/-- The claim's reading of rule 2: length measured in characters. -/
def firstViolationChars (name : String) : Option RuleViolation :=
  firstViolationWith (fun s => s.data.length) name

/-- The code's measure for rule 2: length in UTF-8 bytes. -/
def firstViolationBytes (name : String) : Option RuleViolation :=
  firstViolationWith String.utf8ByteSize name

/-- The rejection message the code reports for each rule. -/
def violationMessage : RuleViolation → String
  | .empty => "name cannot be empty"
  | .tooLong => "name cannot exceed 255 characters"
  | .badFirstChar => "name must start with alphanumeric character"
  | .badChar => "name can only contain alphanumeric characters, hyphens, and underscores"

/-- A 128-character name ('é' repeated) whose UTF-8 encoding is 256 bytes. -/
def eAcute128 : String := String.mk (List.replicate 128 'é')

/-- Store states reachable through the repository's write operations, starting
from the empty table left by the migration: `create` (with arbitrary generated
id and clock reading) and `delete` are the only statements that modify the
applications table, and a failed `create` does not change it. -/
inductive Reachable : Store → Prop
  | init : Reachable ⟨[]⟩
  | create_ok {s : Store} {name id : String} {ts : Int} {a : Application} {s2 : Store} :
      Reachable s → create s name id ts = .ok (.ok (a, s2)) → Reachable s2
  | delete_any {s : Store} (id : String) :
      Reachable s → Reachable (delete s id).2

theorem validate_app_name_eq (name : String) :
    validate_app_name name =
      .ok (match firstViolationBytes name with
           | none => Except.ok ()
           | some v => Except.error (.invalidName (violationMessage v))) := by
  unfold validate_app_name firstViolationBytes firstViolationWith
  cases h : name.data with
  | nil => simp [h, violationMessage]
  | cons c cs =>
    simp only [h, List.cons_ne_nil, ite_false, reduceCtorEq, if_neg, not_false_iff]
    by_cases hb : name.utf8ByteSize > 255
    · simp [hb, violationMessage]
    · by_cases hc : rustIsAlphanumeric c
      · by_cases ha : (c :: cs).all allowedChar
        · simp [hb, hc, ha]
        · simp [hb, hc, ha, violationMessage]
      · simp [hb, hc, violationMessage]

theorem mapCreateError_ne_invalidName (name : String) (e : SqlxError) (m : String) :
    mapCreateError name e ≠ .invalidName m := by
  unfold mapCreateError
  cases e with
  | database oc msg =>
    cases oc with
    | none => simp
    | some code => by_cases hc : code == "2067" <;> simp [hc]
  | other msg => simp

theorem create_ok_inv {s : Store} {name id : String} {ts : Int}
    {a : Application} {s2 : Store}
    (h : create s name id ts = .ok (.ok (a, s2))) :
    validate_app_name name = .ok (.ok ()) ∧
    a = ⟨id, name, ts⟩ ∧ s2 = ⟨s.rows ++ [a]⟩ ∧
    (∀ r ∈ s.rows, r.name ≠ name) ∧ (∀ r ∈ s.rows, r.id ≠ id) := by
  unfold create at h
  cases hv : validate_app_name name with
  | panicked => rw [hv] at h; simp at h
  | ok r =>
    cases r with
    | error e => rw [hv] at h; simp at h
    | ok u =>
      rw [hv] at h
      unfold sqliteInsert at h
      by_cases hn : s.rows.any (fun r => r.name == name)
      · simp [hn] at h
      · by_cases hi : s.rows.any (fun r => r.id == id)
        · simp [hn, hi] at h
        · simp only [hn, hi, Bool.false_eq_true, if_neg, not_false_iff,
            RustOutcome.ok.injEq, Except.ok.injEq, Prod.mk.injEq] at h
          simp only [List.any_eq_true, beq_iff_eq, not_exists, not_and] at hn hi
          obtain ⟨ha, hs⟩ := h
          cases u
          subst ha
          exact ⟨rfl, rfl, hs.symm, hn, hi⟩

/-- C2 counterexample: the claim reads rule 2 as "at most 255 characters".
The 128-character name 'é'×128 passes all four rules under that reading
(`firstViolationChars` finds no violation), yet `validate_app_name` rejects
it, because the code compares `name.len()` — the UTF-8 byte length, 256
here — against 255. -/
theorem validate_char_length_refuted :
    firstViolationChars eAcute128 = none ∧
    validate_app_name eAcute128 =
      .ok (.error (.invalidName "name cannot exceed 255 characters")) := by
  exact ⟨by decide, by decide⟩

/-- C2 (amended): for every input string, `validate_app_name` applies the four
rules in order with the first failure winning — non-empty, UTF-8 byte length
at most 255, alphanumeric first character, every character alphanumeric, '-'
or '_' — accepts exactly when all four hold, and reports the message of the
first rule violated. -/
theorem validate_rules_bytes (name : String) :
    validate_app_name name =
      .ok (match firstViolationBytes name with
           | none => Except.ok ()
           | some v => Except.error (.invalidName (violationMessage v))) :=
  validate_app_name_eq name

/-- C9: `validate_app_name` is total and deterministic: on every input it
returns (it is a Lean function, hence terminating and identical on repeated
calls), it never reaches the panic of the first-character unwrap, and its
result is exactly one of accept or reject-with-an-InvalidName-reason. -/
theorem validate_total (name : String) :
    validate_app_name name ≠ .panicked ∧
    (validate_app_name name = .ok (.ok ()) ∨
     ∃ m, validate_app_name name = .ok (.error (.invalidName m))) := by
  cases hv : firstViolationBytes name with
  | none =>
    refine ⟨?_, Or.inl ?_⟩ <;> simp [validate_app_name_eq name, hv]
  | some v =>
    refine ⟨?_, Or.inr ⟨violationMessage v, ?_⟩⟩ <;> simp [validate_app_name_eq name, hv]

/-- C10: `validate_app_name` treats "alphanumeric" as Unicode alphanumeric —
the all-non-ASCII names "café" and "データ" are accepted — and measures the
255 limit in UTF-8 bytes: 'é'×128 has 128 ≤ 255 characters but a 256-byte
encoding and is rejected as too long. -/
theorem validate_unicode_bytes :
    validate_app_name "café" = .ok (.ok ()) ∧
    validate_app_name "データ" = .ok (.ok ()) ∧
    eAcute128.data.length ≤ 255 ∧ 255 < eAcute128.utf8ByteSize ∧
    validate_app_name eAcute128 =
      .ok (.error (.invalidName "name cannot exceed 255 characters")) :=
  ⟨by decide, by decide, by decide, by decide, by decide⟩

/-- C7: on every Application Service failure — InvalidName and DuplicateName
included — both tool handlers return a protocol error whose structured code is
the single generic INTERNAL_ERROR classification regardless of the cause, and
whose message text contains the underlying failure's description. -/
theorem tool_error_uniform (e : DbError) :
    (∃ m, otter_create_app (.error e) = .error ⟨INTERNAL_ERROR, m⟩ ∧
          ∃ p, m = p ++ e.message) ∧
    (∃ m, otter_list_apps (.error e) = .error ⟨INTERNAL_ERROR, m⟩ ∧
          ∃ p, m = p ++ e.message) :=
  ⟨⟨_, rfl, "Failed to create application: ", rfl⟩,
   ⟨_, rfl, "Failed to list applications: ", rfl⟩⟩

/-- C3: whenever `create` succeeds with application `a` and store state `s2`,
looking `a` up by its generated id and by the requested name both return
exactly the record `create` returned. -/
theorem create_get_roundtrip {s : Store} {name id : String} {ts : Int}
    {a : Application} {s2 : Store}
    (h : create s name id ts = .ok (.ok (a, s2))) :
    get s2 a.id = some a ∧ get_by_name s2 name = some a := by
  obtain ⟨-, ha, hs2, hn, hi⟩ := create_ok_inv h
  subst hs2
  constructor
  · unfold get
    rw [List.find?_append]
    have h1 : s.rows.find? (fun r => r.id == a.id) = none := by
      rw [List.find?_eq_none]
      intro x hx
      simpa [ha] using hi x hx
    rw [h1]
    simp
  · unfold get_by_name
    rw [List.find?_append]
    have h1 : s.rows.find? (fun r => r.name == name) = none := by
      rw [List.find?_eq_none]
      intro x hx
      simpa using hn x hx
    rw [h1]
    simp [ha]

/-- C3 witness: creating "my-app" in the empty store and reading it back. -/
theorem create_get_roundtrip_witness :
    get ⟨[⟨"id-1", "my-app", 5⟩]⟩ "id-1" = some ⟨"id-1", "my-app", 5⟩ ∧
    get_by_name ⟨[⟨"id-1", "my-app", 5⟩]⟩ "my-app" = some ⟨"id-1", "my-app", 5⟩ :=
  @create_get_roundtrip ⟨[]⟩ "my-app" "id-1" 5 ⟨"id-1", "my-app", 5⟩
    ⟨[⟨"id-1", "my-app", 5⟩]⟩ (by decide)

/-- C1: `create` returns InvalidName exactly when `validate_app_name` rejects
the name; it returns DuplicateName when a row with the same name is already
stored; and its `map_err` closure maps every non-2067 database failure to the
generic DatabaseError, never to InvalidName or DuplicateName. -/
theorem create_error_mapping :
    (∀ (s : Store) (name id : String) (ts : Int),
      ((∃ m, create s name id ts = .ok (.error (.invalidName m))) ↔
       (∃ m, validate_app_name name = .ok (.error (.invalidName m))))) ∧
    (∀ (s : Store) (name id : String) (ts : Int),
      validate_app_name name = .ok (.ok ()) →
      (∃ r ∈ s.rows, r.name = name) →
      create s name id ts = .ok (.error (.duplicateName name))) ∧
    (∀ (name : String) (e : SqlxError),
      (∀ m, e ≠ .database (some "2067") m) →
      mapCreateError name e = .databaseError e) := by
  refine ⟨?_, ?_, ?_⟩
  · intro s name id ts
    constructor
    · rintro ⟨m, hm⟩
      cases hv : firstViolationBytes name with
      | some v => exact ⟨violationMessage v, by simp [validate_app_name_eq name, hv]⟩
      | none =>
        exfalso
        have hok : validate_app_name name = .ok (.ok ()) := by
          simp [validate_app_name_eq name, hv]
        unfold create at hm
        rw [hok] at hm
        dsimp only at hm
        cases hins : sqliteInsert s ⟨id, name, ts⟩ with
        | ok s2 => rw [hins] at hm; simp at hm
        | error e =>
          rw [hins] at hm
          simp only [RustOutcome.ok.injEq, Except.error.injEq] at hm
          exact mapCreateError_ne_invalidName name e m hm
    · rintro ⟨m, hm⟩
      unfold create
      rw [hm]
      exact ⟨m, rfl⟩
  · intro s name id ts hv ⟨r, hr, hrname⟩
    unfold create
    rw [hv]
    unfold sqliteInsert
    have hn : s.rows.any (fun x => x.name == name) = true := by
      rw [List.any_eq_true]
      exact ⟨r, hr, by simp [hrname]⟩
    simp [hn, mapCreateError]
  · intro name e he
    unfold mapCreateError
    cases e with
    | database oc msg =>
      cases oc with
      | none => rfl
      | some code =>
        have : ¬ code = "2067" := fun hc => he msg (by rw [hc])
        simp [this]
    | other msg => rfl

/-- C1 witness: creating "my-app" when a row named "my-app" exists yields
DuplicateName; a non-2067 failure ("disk full") maps to DatabaseError; and
the invalid name "-app" yields exactly the InvalidName results on both sides
of the equivalence. -/
theorem create_error_mapping_witness :
    create ⟨[⟨"id0", "my-app", 1⟩]⟩ "my-app" "id1" 2 =
      .ok (.error (.duplicateName "my-app")) ∧
    mapCreateError "my-app" (.other "disk full") = .databaseError (.other "disk full") ∧
    (∃ m, validate_app_name "-app" = .ok (.error (.invalidName m))) := by
  refine ⟨?_, ?_, ?_⟩
  · exact create_error_mapping.2.1 ⟨[⟨"id0", "my-app", 1⟩]⟩ "my-app" "id1" 2
      (by decide) ⟨⟨"id0", "my-app", 1⟩, by simp, rfl⟩
  · exact create_error_mapping.2.2 "my-app" (.other "disk full")
      (fun m h => by cases h)
  · exact (create_error_mapping.1 ⟨[]⟩ "-app" "id1" 2).mp
      ⟨"name must start with alphanumeric character", by decide⟩

/-- C6: `delete` on an id that is stored returns true and removes the row, so
a subsequent `get` of that id finds nothing; on an id that is not stored it
returns false — not an error — and leaves the store unchanged. -/
theorem delete_semantics (s : Store) (id : String) :
    ((∃ r ∈ s.rows, r.id = id) →
      (delete s id).1 = true ∧ get (delete s id).2 id = none) ∧
    (¬ (∃ r ∈ s.rows, r.id = id) →
      (delete s id).1 = false ∧ (delete s id).2 = s) := by
  unfold delete get
  constructor
  · rintro ⟨r, hr, hrid⟩
    constructor
    · simp only [decide_eq_true_eq]
      have hmem : r ∈ s.rows.filter (fun x => x.id == id) := by
        rw [List.mem_filter]
        exact ⟨hr, by simp [hrid]⟩
      exact List.length_pos.mpr (List.ne_nil_of_mem hmem)
    · rw [List.find?_eq_none]
      intro x hx
      rw [List.mem_filter] at hx
      simpa [bne_iff_ne] using hx.2
  · intro hne
    push_neg at hne
    constructor
    · simp only [decide_eq_false_iff_not, not_lt, Nat.le_zero, List.length_eq_zero]
      rw [List.filter_eq_nil_iff]
      intro x hx
      simpa using hne x hx
    · have hid : s.rows.filter (fun r => r.id != id) = s.rows := by
        rw [List.filter_eq_self]
        intro x hx
        simpa [bne_iff_ne] using hne x hx
      simp [hid]

/-- C6 witness: deleting the stored id "i" returns true and the row is gone;
deleting the absent id "j" returns false and leaves the single row in place. -/
theorem delete_semantics_witness :
    ((delete ⟨[⟨"i", "a", 0⟩]⟩ "i").1 = true ∧
      get (delete ⟨[⟨"i", "a", 0⟩]⟩ "i").2 "i" = none) ∧
    ((delete ⟨[⟨"i", "a", 0⟩]⟩ "j").1 = false ∧
      (delete ⟨[⟨"i", "a", 0⟩]⟩ "j").2 = ⟨[⟨"i", "a", 0⟩]⟩) :=
  ⟨(delete_semantics ⟨[⟨"i", "a", 0⟩]⟩ "i").1 ⟨⟨"i", "a", 0⟩, by simp, rfl⟩,
   (delete_semantics ⟨[⟨"i", "a", 0⟩]⟩ "j").2 (by decide)⟩

theorem appLe_trans (a b c : Application)
    (hab : appLe a b = true) (hbc : appLe b c = true) : appLe a c = true := by
  simp only [appLe, decide_eq_true_eq] at hab hbc ⊢
  rcases hab with h1 | ⟨h1, h1n⟩ <;> rcases hbc with h2 | ⟨h2, h2n⟩
  · exact Or.inl (by omega)
  · exact Or.inl (by omega)
  · exact Or.inl (by omega)
  · exact Or.inr ⟨by omega, le_trans h1n h2n⟩

theorem appLe_total (a b : Application) : (appLe a b || appLe b a) = true := by
  simp only [appLe, Bool.or_eq_true, decide_eq_true_eq]
  rcases lt_trichotomy a.created_at b.created_at with h | h | h
  · exact Or.inr (Or.inl h)
  · rcases le_total a.name b.name with hn | hn
    · exact Or.inl (Or.inr ⟨h, hn⟩)
    · exact Or.inr (Or.inr ⟨h.symm, hn⟩)
  · exact Or.inl (Or.inl h)

/-- C4: `list` returns exactly the stored rows (a permutation of the table)
and in the order created_at descending with name ascending breaking ties:
each row is followed only by rows with a strictly smaller created_at or with
the identical created_at and a `≥` name. -/
theorem list_ordering (s : Store) :
    (list s).Perm s.rows ∧
    (list s).Pairwise (fun a b =>
      b.created_at < a.created_at ∨
      (a.created_at = b.created_at ∧ a.name ≤ b.name)) := by
  constructor
  · exact List.mergeSort_perm s.rows appLe
  · have h := List.sorted_mergeSort appLe_trans appLe_total s.rows
    exact h.imp (fun hab => by simpa [appLe, decide_eq_true_eq] using hab)

theorem migrate_stable {st st1 : SchemaState} {t : Int}
    (h : migrate st t = .ok st1) (t2 : Int) : migrate st1 t2 = .ok st1 := by
  obtain ⟨mt, ams, apt⟩ := st
  unfold migrate runInitialSchema at h
  dsimp only at h
  cases hf : ams.find? (fun r => r.1 == "001_initial_schema") with
  | some p =>
    rw [hf] at h
    replace h := Except.ok.inj h
    subst h
    unfold migrate
    dsimp only
    rw [hf]
  | none =>
    rw [hf] at h
    cases apt with
    | true => simp at h
    | false =>
      simp only [Bool.false_eq_true, if_neg, not_false_iff] at h
      replace h := Except.ok.inj h
      subst h
      unfold migrate
      dsimp only
      rw [List.find?_append, hf]
      simp [List.find?]

/-- C5: once a `migrate` call has succeeded, every further call in the
sequence returns the identical schema state and never errors, so N ≥ 1 calls
in sequence (the first with clock `t`, the rest with clocks `ts`) end in the
same state as the single first call. -/
theorem migrate_idempotent (st st1 : SchemaState) (t : Int) (ts : List Int)
    (h : migrate st t = .ok st1) :
    migrateN st (t :: ts) = .ok st1 ∧ migrateN st1 ts = .ok st1 := by
  have key : ∀ l, migrateN st1 l = .ok st1 := by
    intro l
    induction l with
    | nil => rfl
    | cons t2 l ih =>
      unfold migrateN
      rw [migrate_stable h t2]
      exact ih
  refine ⟨?_, key ts⟩
  unfold migrateN
  rw [h]
  exact key ts

/-- C5 witness: three successive calls on a fresh schema end in the state the
first call produced, with no error. -/
theorem migrate_idempotent_witness :
    migrateN ⟨false, [], false⟩ [1, 2, 3] =
      .ok ⟨true, [("001_initial_schema", 1)], true⟩ ∧
    migrateN ⟨true, [("001_initial_schema", 1)], true⟩ [2, 3] =
      .ok ⟨true, [("001_initial_schema", 1)], true⟩ :=
  migrate_idempotent ⟨false, [], false⟩ ⟨true, [("001_initial_schema", 1)], true⟩
    1 [2, 3] (by decide)

/-- C8: every store state reachable through the repository's write paths
contains only rows whose names `validate_app_name` accepts: `create` is the
only inserting path, it validates first and inserts only on acceptance, and
`delete` only removes rows. -/
theorem persisted_rows_valid (s : Store) (h : Reachable s) :
    ∀ a ∈ s.rows, validate_app_name a.name = .ok (.ok ()) := by
  induction h with
  | init => intro a ha; simp at ha
  | create_ok hr hc ih =>
    obtain ⟨hv, ha, hs2, -, -⟩ := create_ok_inv hc
    subst ha
    subst hs2
    intro b hb
    simp only [List.mem_append, List.mem_singleton] at hb
    rcases hb with hb | rfl
    · exact ih b hb
    · exact hv
  | delete_any id hr ih =>
    intro b hb
    unfold delete at hb
    simp only [List.mem_filter] at hb
    exact ih b hb.1

/-- C8 witness: the store reached by creating "my-app" in the empty table
holds only rows with accepted names. -/
theorem persisted_rows_valid_witness :
    validate_app_name (Application.mk "id-1" "my-app" 5).name = .ok (.ok ()) :=
  persisted_rows_valid ⟨[⟨"id-1", "my-app", 5⟩]⟩
    (@Reachable.create_ok ⟨[]⟩ "my-app" "id-1" 5 ⟨"id-1", "my-app", 5⟩
      ⟨[⟨"id-1", "my-app", 5⟩]⟩ Reachable.init (by decide))
    ⟨"id-1", "my-app", 5⟩ (by simp)

end OtterShipper
